import Mathlib

/-!
Verification of the ACQ2106 MDSplus streaming device driver core
(`ACQ2106.py`, `acq2106.py`, `acq2106_parse_spad_timestamps.py`).

The Python source is shallowly embedded: machine integers become `Nat`/`Int`,
Python floats used for time-axis arithmetic become `ℚ`, fallible code returns
`Except`/`Option`, and the Reader/Writer thread bodies become explicit
state-passing functions driven by a script of read outcomes.
-/

/-! ## Python exception model

The exception classes that the embedded code can raise or that the spec's
error taxonomy names. `configError` is the spec's taxonomy name; the source
itself never defines or raises it.
-/

inductive PyError where
  | zeroDivisionError
  | nameError
  | configError
  | socketError
  | socketTimeout
  | valueError
  deriving DecidableEq, Repr

/-! ## Timestamp codec

From `src/acq2106_parse_spad_timestamps.py` lines 5-29 (the same code is
duplicated as methods on `ACQ2106` in `src/acq2106.py` lines 1618-1642).
-/

/-- `_SECONDS_TO_NANOSECONDS = 1_000_000_000`. -/
def SECONDS_TO_NANOSECONDS : Int := 1000000000

/-- `_TAI_TO_UTC_OFFSET_NANOSECONDS = 37 * _SECONDS_TO_NANOSECONDS`. -/
def TAI_TO_UTC_OFFSET_NANOSECONDS : Int := 37 * SECONDS_TO_NANOSECONDS

/-- `_tai_to_utc(tai_timestamp)`: subtract the fixed leap-second offset. -/
def tai_to_utc (tai_timestamp : Int) : Int :=
  tai_timestamp - TAI_TO_UTC_OFFSET_NANOSECONDS

/-- `_utc_to_tai(utc_timestamp)`: add the fixed leap-second offset. -/
def utc_to_tai (utc_timestamp : Int) : Int :=
  utc_timestamp + TAI_TO_UTC_OFFSET_NANOSECONDS

/-- `_parse_spad_tai_timestamp(spad1, spad2, ns_per_tick)`:
`tai_ticks = spad2 & 0x0FFFFFFF` (the vernier), then
`spad1 * _SECONDS_TO_NANOSECONDS + tai_ticks * ns_per_tick`.
The scratchpad words are unsigned 32-bit quantities, embedded as `Nat`. -/
def parse_spad_tai_timestamp (spad1 spad2 ns_per_tick : Nat) : Nat :=
  let tai_seconds := spad1
  let tai_ticks := spad2 &&& 268435455
  let tai_nanoseconds := tai_ticks * ns_per_tick
  tai_seconds * 1000000000 + tai_nanoseconds

/-! ## Segment planner

From `src/ACQ2106.py` `StreamReader.run` lines 1438-1455 (identical logic in
`src/acq2106.py` lines 1013-1030).
-/

/-- One step of the decimator accumulation:
`decimator = int(decimator * soft_decim / gcd(decimator, soft_decim))`.
For nonnegative integers the Python float division is exact here because
`gcd` divides the product, so `Nat` division is a faithful embedding. -/
def decimatorStep (decimator soft_decim : Nat) : Nat :=
  decimator * soft_decim / Nat.gcd decimator soft_decim

/-- The `for soft_decim in software_decimations` accumulation, starting at 1. -/
def decimatorOf (software_decimations : List Nat) : Nat :=
  software_decimations.foldl decimatorStep 1

/-- The segment-length adjustment:
`if segment_length % decimator > 0: segment_length = (segment_length // decimator + 1) * decimator`. -/
def adjustSegmentLength (segment_length decimator : Nat) : Nat :=
  if segment_length % decimator > 0 then
    (segment_length / decimator + 1) * decimator
  else
    segment_length

/-- The full planner. In Python, `segment_length % decimator` raises
`ZeroDivisionError` when `decimator == 0`, which the `Except` branch models. -/
def segmentPlanner (software_decimations : List Nat) (segment_length : Nat) :
    Except PyError Nat :=
  let decimator := decimatorOf software_decimations
  if decimator = 0 then
    .error .zeroDivisionError
  else
    .ok (adjustSegmentLength segment_length decimator)

/-- Result of the Reader's setup phase: in `StreamReader.run` the streaming
socket is connected only after the planner has finished (source lines
1438-1464: planner, then writer start, then `socket.connect`), so an
exception in the planner leaves the socket unopened. -/
structure SetupOutcome where
  socketOpened : Bool
  exception : Option PyError
  segment_length : Nat
  deriving DecidableEq, Repr

/-- The setup ordering of `StreamReader.run`: run the planner, and open the
streaming socket only if it succeeded. -/
def readerSetup (software_decimations : List Nat) (segment_length : Nat) :
    SetupOutcome :=
  match segmentPlanner software_decimations segment_length with
  | .error e => { socketOpened := false, exception := some e, segment_length := 0 }
  | .ok actual => { socketOpened := true, exception := none, segment_length := actual }

/-! ## Wire decoder

From `src/ACQ2106.py` `StreamWriter.run` lines 1344-1380 (identical logic in
`src/acq2106.py` lines 924-960). Buffers are byte lists; `np.frombuffer`
with `dtype='int32'`/`'int16'` reads little-endian words, embedded below as
`bytesToWords32`/`bytesToWords16` plus a signed reinterpretation.
-/

/-- Little-endian byte serialization of a 32-bit word (`w < 2^32`). -/
def byteEncode32 (w : Nat) : List Nat :=
  [w % 256, w / 256 % 256, w / 65536 % 256, w / 16777216 % 256]

/-- `np.frombuffer(buffer, dtype='int32')` word extraction (unsigned view):
consume the byte list four bytes at a time, little-endian. -/
def bytesToWords32 : List Nat → List Nat
  | b0 :: b1 :: b2 :: b3 :: rest =>
      (b0 + 256 * b1 + 65536 * b2 + 16777216 * b3) :: bytesToWords32 rest
  | _ => []

/-- `np.frombuffer(buffer, dtype='int16')` word extraction (unsigned view). -/
def bytesToWords16 : List Nat → List Nat
  | b0 :: b1 :: rest => (b0 + 256 * b1) :: bytesToWords16 rest
  | _ => []

/-- Two's-complement reinterpretation of a 32-bit pattern as a signed value. -/
def toSigned32 (w : Nat) : Int :=
  if w < 2147483648 then (w : Int) else (w : Int) - 4294967296

/-- Two's-complement reinterpretation of a 16-bit pattern as a signed value. -/
def toSigned16 (w : Nat) : Int :=
  if w < 32768 then (w : Int) else (w : Int) - 65536

/-- The 32-bit pattern of a signed value (two's complement, `x % 2^32`). -/
def toUnsigned32 (x : Int) : Nat := (x % 4294967296).toNat

/-- `np.right_shift(data_int32, 8)` on one word: arithmetic shift right by 8
of a signed 32-bit value, i.e. floor division by 256 (Lean's `Int` division
by a positive divisor is floor division). -/
def asr8 (x : Int) : Int := x / 256

/-- Split a flat list into `rows` rows of `cols` entries each. -/
def chunkRows (cols : Nat) : Nat → List Int → List (List Int)
  | 0, _ => []
  | r + 1, xs => xs.take cols :: chunkRows cols r (xs.drop cols)

/-- `np.reshape(a, (rows, cols))`: raises `ValueError` (here `none`) unless
the element count matches exactly. -/
def reshapeMat (xs : List Int) (rows cols : Nat) : Option (List (List Int)) :=
  if xs.length = rows * cols then some (chunkRows cols rows xs) else none

/-- 4-byte mode channel decoding (`uut.data_size() == 4` branch):
`data = np.right_shift(np.frombuffer(buffer, dtype='int32'), 8)`,
`samples_per_row = nchan + nspad`, then
`np.reshape(data, (segment_length, samples_per_row))[:, :nchan]`.
`none` models the `ValueError` of `frombuffer`/`reshape` on a size mismatch. -/
def decode4 (buf : List Nat) (segment_length nchan nspad : Nat) :
    Option (List (List Int)) :=
  if buf.length % 4 = 0 then
    (reshapeMat (((bytesToWords32 buf).map toSigned32).map asr8)
        segment_length (nchan + nspad)).map
      (fun m => m.map (fun row => row.take nchan))
  else none

/-- 4-byte mode scratchpad decoding: the unshifted `data_int32` reshaped with
the same row width, keeping the columns from `nchan` on
(`np.reshape(data_int32, (segment_length, samples_per_row))[:, nchan:]`). -/
def decode4Spad (buf : List Nat) (segment_length nchan nspad : Nat) :
    Option (List (List Int)) :=
  if buf.length % 4 = 0 then
    (reshapeMat ((bytesToWords32 buf).map toSigned32)
        segment_length (nchan + nspad)).map
      (fun m => m.map (fun row => row.drop nchan))
  else none

/-- 2-byte mode channel decoding (`else` branch):
`data = np.frombuffer(buffer, dtype='int16')`,
`samples_per_row = nchan + nspad * 2`, then reshape and keep the first
`nchan` 16-bit columns. -/
def decode2Channels (buf : List Nat) (segment_length nchan nspad : Nat) :
    Option (List (List Int)) :=
  if buf.length % 2 = 0 then
    (reshapeMat ((bytesToWords16 buf).map toSigned16)
        segment_length (nchan + nspad * 2)).map
      (fun m => m.map (fun row => row.take nchan))
  else none

/-- 2-byte mode scratchpad decoding as the source writes it:
`data_spad_reshaped = np.reshape(data_int32, (segment_length, samples_per_row))[:, nchan:]`
where `data_int32` is the whole buffer as 32-bit words but `samples_per_row`
is still `nchan + nspad * 2`, the 16-bit row width computed in the `else`
branch (source lines 1354 and 1373 of `src/ACQ2106.py`). -/
def decode2Spad (buf : List Nat) (segment_length nchan nspad : Nat) :
    Option (List (List Int)) :=
  if buf.length % 4 = 0 then
    (reshapeMat ((bytesToWords32 buf).map toSigned32)
        segment_length (nchan + nspad * 2)).map
      (fun m => m.map (fun row => row.drop nchan))
  else none

/-! ## Wire encoder (specification side of the round-trip)

A synthetic segment is a list of rows; each row carries `nchan` channel
samples (the upper 24 bits of each 32-bit data word), the per-word low-8-bit
device status flags, and `nspad` raw 32-bit scratchpad words.
-/

structure WireRow where
  samples : List Int
  statuses : List Int
  spadWords : List Nat
  deriving DecidableEq, Repr

/-- The unsigned 32-bit wire words of one row: each data word holds the
sample in its upper 24 bits and the status flags in its low 8 bits, followed
by the raw scratchpad words. -/
def rowWords (r : WireRow) : List Nat :=
  (List.zipWith (fun v s => toUnsigned32 (v * 256 + s)) r.samples r.statuses)
    ++ r.spadWords

/-- Little-endian bytes of one encoded row. -/
def encodeRow4 (r : WireRow) : List Nat :=
  ((rowWords r).map byteEncode32).flatten

/-- The raw byte buffer of a whole synthetic segment in 4-byte wire format. -/
def encode4 (rows : List WireRow) : List Nat :=
  (rows.map encodeRow4).flatten

/-- A well-formed synthetic row for channel counts `nchan`/`nspad`: samples
fit in 24 signed bits, statuses in 8 unsigned bits, scratchpad words in 32
unsigned bits. -/
def WireRow.WellFormed (nchan nspad : Nat) (r : WireRow) : Prop :=
  r.samples.length = nchan ∧ r.statuses.length = nchan ∧
  r.spadWords.length = nspad ∧
  (∀ v ∈ r.samples, -8388608 ≤ v ∧ v < 8388608) ∧
  (∀ s ∈ r.statuses, 0 ≤ s ∧ s < 256) ∧
  (∀ w ∈ r.spadWords, w < 4294967296)

/-! ## Per-segment time axes

From `src/ACQ2106.py` `StreamWriter.run` lines 1326-1377. Python float
arithmetic is embedded as exact `ℚ` arithmetic.
-/

/-- `delta_time = float(1.0 / self.device.FREQUENCY.data() * hardware_decimation)`. -/
def delta_time (frequency hardware_decimation : ℚ) : ℚ :=
  1 / frequency * hardware_decimation

/-- A segment's persisted time axis endpoints (`begin`/`end` of the
`MDSplus.Range`). -/
structure SegmentAxis where
  tBegin : ℚ
  tEnd : ℚ
  deriving DecidableEq, Repr

/-- Per-channel axis (source lines 1362-1368):
`segment_length = self.reader.segment_length / software_decimations[i]`,
`input_delta_time = delta_time * software_decimations[i]`,
`begin = (segment_index * segment_length * input_delta_time) + time_at_0`,
`end = begin + ((segment_length - 1) * input_delta_time)`. -/
def inputSegmentAxis (segment_index total_segment_length soft_decim : Nat)
    (dt time_at_0 : ℚ) : SegmentAxis :=
  let segment_length : ℚ := (total_segment_length : ℚ) / (soft_decim : ℚ)
  let input_delta_time : ℚ := dt * (soft_decim : ℚ)
  let b : ℚ := (segment_index : ℚ) * segment_length * input_delta_time + time_at_0
  { tBegin := b, tEnd := b + (segment_length - 1) * input_delta_time }

/-- Scratchpad axis (source lines 1375-1377):
`begin = segment_index * self.reader.segment_length * delta_time`,
`end = begin + ((self.reader.segment_length - 1) * delta_time)` — note no
`time_at_0` term. -/
def spadSegmentAxis (segment_index total_segment_length : Nat)
    (dt : ℚ) : SegmentAxis :=
  let b : ℚ := (segment_index : ℚ) * (total_segment_length : ℚ) * dt
  { tBegin := b, tEnd := b + ((total_segment_length : ℚ) - 1) * dt }

/-- Modelled from the spec: the claimed time-axis formula — begin
`k × (L/d) × (1/frequency × hardware_decimation × d) + time_origin_offset`,
end `begin + (L/d - 1) ×` the same spacing. The spec asserts the scratchpad
axis is this formula with `d = 1`. -/
def claimedAxis (segment_index total_segment_length soft_decim : Nat)
    (frequency hardware_decimation time_origin_offset : ℚ) : SegmentAxis :=
  let spacing : ℚ := 1 / frequency * hardware_decimation * (soft_decim : ℚ)
  let outLen : ℚ := (total_segment_length : ℚ) / (soft_decim : ℚ)
  let b : ℚ := (segment_index : ℚ) * outLen * spacing + time_origin_offset
  { tBegin := b, tEnd := b + (outLen - 1) * spacing }

/-! ## Reader thread model

`src/ACQ2106.py` `StreamReader.run` lines 1466-1525. Buffers are identified
by numeric ids; the network is modelled by a script giving each loop
iteration's read outcome. The end-of-stream sentinel (`None` pushed to the
full queue) is `none`.
-/

inductive ReadOutcome where
  | success
  | timeout
  | hardError
  deriving DecidableEq, Repr

structure ReaderState where
  emptyQ : List Nat
  fullQ : List (Option Nat)
  segIdx : Nat
  running : Bool
  nextBufferId : Nat
  exception : Option PyError
  deriving DecidableEq, Repr

/-- Buffer acquisition (source lines 1469-1474): non-blocking pop from the
empty queue, or allocate a fresh buffer when it is empty. -/
def acquireBuffer (s : ReaderState) : Nat × ReaderState :=
  match s.emptyQ with
  | b :: rest => (b, { s with emptyQ := rest })
  | [] => (s.nextBufferId, { s with nextBufferId := s.nextBufferId + 1 })

/-- The Reader main loop of `src/ACQ2106.py` (lines 1466-1509): while the
run flag is set and fewer than `segment_count` segments were read, acquire a
buffer and attempt a full-segment read. On `socket.timeout` the buffer is
put back on the empty queue and the same segment index is retried; on
`socket.error` the sentinel is pushed and the raised exception is recorded
by the surrounding `except` clause; on success the buffer is pushed to the
full queue and the segment index advances. An exhausted script models the
run flag being cleared externally mid-read. -/
def readerLoop (segment_count : Nat) : List ReadOutcome → ReaderState → ReaderState
  | [], s => s
  | o :: rest, s =>
      if s.running = true ∧ s.segIdx < segment_count then
        match o with
        | .timeout =>
            readerLoop segment_count rest
              { (acquireBuffer s).2 with
                  emptyQ := (acquireBuffer s).2.emptyQ ++ [(acquireBuffer s).1] }
        | .hardError =>
            { (acquireBuffer s).2 with
                fullQ := (acquireBuffer s).2.fullQ ++ [none],
                exception := some .socketError }
        | .success =>
            readerLoop segment_count rest
              { (acquireBuffer s).2 with
                  fullQ := (acquireBuffer s).2.fullQ ++ [some (acquireBuffer s).1],
                  segIdx := (acquireBuffer s).2.segIdx + 1 }
      else s

/-- The Reader main loop of `src/acq2106.py` (lines 1040-1082): identical
except that on `socket.timeout` the buffer is NOT returned to the empty
queue (lines 1064-1066 just log and `continue`). -/
def readerLoopOld (segment_count : Nat) : List ReadOutcome → ReaderState → ReaderState
  | [], s => s
  | o :: rest, s =>
      if s.running = true ∧ s.segIdx < segment_count then
        match o with
        | .timeout => readerLoopOld segment_count rest (acquireBuffer s).2
        | .hardError =>
            { (acquireBuffer s).2 with
                fullQ := (acquireBuffer s).2.fullQ ++ [none],
                exception := some .socketError }
        | .success =>
            readerLoopOld segment_count rest
              { (acquireBuffer s).2 with
                  fullQ := (acquireBuffer s).2.fullQ ++ [some (acquireBuffer s).1],
                  segIdx := (acquireBuffer s).2.segIdx + 1 }
      else s

/-- The join-time exception merge (source lines 1522-1525):
`if hasattr(self.writer, "exception"): self.exception = self.writer.exception`
— the Writer's recorded exception, when present, unconditionally replaces
whatever the Reader had stored. -/
def joinWriter (readerExc writerExc : Option PyError) : Option PyError :=
  match writerExc with
  | some w => some w
  | none => readerExc

/-- The Reader epilogue (source lines 1511-1525): close the socket, push the
sentinel to the full queue, clear the run flag, join the Writer and merge
exceptions. -/
def readerEpilogue (writerExc : Option PyError) (s : ReaderState) : ReaderState :=
  let s1 := { s with fullQ := s.fullQ ++ [none], running := false }
  { s1 with exception := joinWriter s1.exception writerExc }

/-- A whole Reader run: main loop then epilogue. -/
def readerRun (segment_count : Nat) (script : List ReadOutcome)
    (writerExc : Option PyError) (s : ReaderState) : ReaderState :=
  readerEpilogue writerExc (readerLoop segment_count script s)

/-- The Reader's state at thread start: both queues empty, segment index 0,
run flag set, no exception. -/
def initialReaderState : ReaderState :=
  { emptyQ := [], fullQ := [], segIdx := 0, running := true,
    nextBufferId := 0, exception := none }

/-- Number of end-of-stream sentinels sitting in the full queue. -/
def sentinelCount (s : ReaderState) : Nat :=
  (s.fullQ.filter (fun b => b.isNone)).length

/-! ## Writer thread model (the `src/ACQ2106.py` revision)

`src/ACQ2106.py` `StreamWriter.run` lines 1286-1393. Before the drain loop,
the scratchpad-node filtering loop (lines 1311-1317) is
`for spad_index in range(self.device._MAX_SPAD): ... if i < self.reader.nspad: ...`
— its condition evaluates the name `i`, which is not among the local names
bound at that point.
-/

/-- The local variable names assigned in `StreamWriter.run` of
`src/ACQ2106.py` before line 1313 executes (parameters and all assignment /
loop targets of lines 1286-1312). -/
def writerLocalsBeforeSpadLoop : List String :=
  ["self", "uut", "input_nodes", "resampled_nodes", "resample_factors",
   "software_decimations", "site", "site_node", "client", "input_index",
   "input_node", "spad_nodes", "spad_index", "spad_node"]

/-- Python name resolution for a bare name in the function body: a name not
bound among the locals raises `NameError`. -/
def lookupLocal (env : List String) (nm : String) : Except PyError Unit :=
  if nm ∈ env then .ok () else .error .nameError

/-- The scratchpad-node filtering loop (`for spad_index in range(_MAX_SPAD)`),
whose body first evaluates the name `i` (line 1313). -/
def writerSpadLoop : Nat → Except PyError Unit
  | 0 => .ok ()
  | n + 1 =>
      match lookupLocal writerLocalsBeforeSpadLoop "i" with
      | .error e => .error e
      | .ok _ => writerSpadLoop n

structure WriterResult where
  exception : Option PyError
  segmentsPersisted : Nat
  deriving DecidableEq, Repr

/-- The Writer thread body of the `src/ACQ2106.py` revision: run the setup
(including the scratchpad filtering loop over `_MAX_SPAD` nodes); any
exception is caught by the outermost `except` and recorded as the
thread-local `self.exception`, before a single buffer is drained. Otherwise
drain buffers from the full queue until the sentinel, persisting one segment
each. -/
def writerRunACQ2106 (maxSpad : Nat) (buffers : List (Option Nat)) : WriterResult :=
  match writerSpadLoop maxSpad with
  | .error e => { exception := some e, segmentsPersisted := 0 }
  | .ok _ =>
      { exception := none,
        segmentsPersisted := (buffers.takeWhile (fun b => b.isSome)).length }

/-! ### Planner lemmas -/

theorem decimatorStep_eq_lcm (a f : Nat) : decimatorStep a f = Nat.lcm a f := rfl

theorem decimatorOf_eq_foldl_lcm (l : List Nat) :
    decimatorOf l = l.foldl Nat.lcm 1 := by
  have h : decimatorStep = Nat.lcm := funext fun a => funext fun b => rfl
  unfold decimatorOf
  rw [h]

theorem dvd_foldl_lcm (a : Nat) (l : List Nat) : a ∣ l.foldl Nat.lcm a := by
  induction l generalizing a with
  | nil => exact dvd_refl a
  | cons f t ih =>
      exact dvd_trans (Nat.dvd_lcm_left a f) (ih (Nat.lcm a f))

theorem mem_dvd_foldl_lcm (a f : Nat) (l : List Nat) (hf : f ∈ l) :
    f ∣ l.foldl Nat.lcm a := by
  induction l generalizing a with
  | nil => cases hf
  | cons g t ih =>
      rcases List.mem_cons.mp hf with h | h
      · subst h
        exact dvd_trans (Nat.dvd_lcm_right a f) (dvd_foldl_lcm (Nat.lcm a f) t)
      · exact ih (Nat.lcm a g) h

theorem foldl_lcm_dvd (a m : Nat) (l : List Nat) (ha : a ∣ m)
    (hl : ∀ f ∈ l, f ∣ m) : l.foldl Nat.lcm a ∣ m := by
  induction l generalizing a with
  | nil => exact ha
  | cons g t ih =>
      exact ih (Nat.lcm a g) (Nat.lcm_dvd ha (hl g (List.mem_cons_self g t)))
        (fun f hf => hl f (List.mem_cons_of_mem g hf))

theorem foldl_lcm_pos (a : Nat) (l : List Nat) (ha : 0 < a)
    (hl : ∀ f ∈ l, 0 < f) : 0 < l.foldl Nat.lcm a := by
  induction l generalizing a with
  | nil => exact ha
  | cons g t ih =>
      have hg : 0 < g := hl g (List.mem_cons_self g t)
      exact ih (Nat.lcm a g) (Nat.lcm_pos ha hg)
        (fun f hf => hl f (List.mem_cons_of_mem g hf))

theorem decimatorStep_zero_right (a : Nat) : decimatorStep a 0 = 0 := by
  simp [decimatorStep]

theorem foldl_decimatorStep_zero (l : List Nat) :
    l.foldl decimatorStep 0 = 0 := by
  induction l with
  | nil => rfl
  | cons f t ih =>
      have h : decimatorStep 0 f = 0 := by simp [decimatorStep]
      simp only [List.foldl_cons, h, ih]

theorem decimatorOf_eq_zero_of_mem (l : List Nat) (h : 0 ∈ l) :
    decimatorOf l = 0 := by
  unfold decimatorOf
  generalize 1 = a
  induction l generalizing a with
  | nil => cases h
  | cons f t ih =>
      rcases List.mem_cons.mp h with hf | hf
      · subst hf
        simp only [List.foldl_cons, decimatorStep_zero_right, foldl_decimatorStep_zero]
      · exact ih hf (decimatorStep a f)

theorem adjust_dvd (r D : Nat) (hD : 0 < D) : D ∣ adjustSegmentLength r D := by
  unfold adjustSegmentLength
  split
  · exact Dvd.intro_left (r / D + 1) rfl
  · exact Nat.dvd_of_mod_eq_zero (by omega)

theorem adjust_ge (r D : Nat) (hD : 0 < D) : r ≤ adjustSegmentLength r D := by
  unfold adjustSegmentLength
  split
  · have h1 := Nat.div_add_mod r D
    have h2 := Nat.mod_lt r hD
    have h3 : (r / D + 1) * D = D * (r / D) + D := by ring
    omega
  · exact le_refl r

theorem adjust_min (r D m : Nat) (hD : 0 < D) (hm : D ∣ m) (hrm : r ≤ m) :
    adjustSegmentLength r D ≤ m := by
  unfold adjustSegmentLength
  split
  · obtain ⟨k, hk⟩ := hm
    subst hk
    have h1 := Nat.div_add_mod r D
    have h2 : D * (r / D) < D * k := by omega
    have h3 : r / D < k := Nat.lt_of_mul_lt_mul_left h2
    calc (r / D + 1) * D ≤ k * D := Nat.mul_le_mul_right D (by omega)
      _ = D * k := Nat.mul_comm k D
  · exact hrm

/-- C1: for every requested segment length and non-empty list of per-channel
software-decimation factors (all ≥ 1), the iterated
`decimator = decimator * f / gcd(decimator, f)` accumulation equals the
least common multiple of the factors (every factor divides it and it
divides every common multiple), and the adjusted segment length is the
smallest multiple of the decimator that is ≥ the request and is exactly
divisible by every factor; the planner returns it. -/
theorem segment_planner_correct (factors : List Nat) (requested : Nat)
    (hne : factors ≠ []) (hpos : ∀ f ∈ factors, 1 ≤ f) :
    (∀ f ∈ factors, f ∣ decimatorOf factors) ∧
    (∀ m : Nat, (∀ f ∈ factors, f ∣ m) → decimatorOf factors ∣ m) ∧
    decimatorOf factors ∣ adjustSegmentLength requested (decimatorOf factors) ∧
    requested ≤ adjustSegmentLength requested (decimatorOf factors) ∧
    (∀ m : Nat, decimatorOf factors ∣ m → requested ≤ m →
      adjustSegmentLength requested (decimatorOf factors) ≤ m) ∧
    (∀ f ∈ factors, adjustSegmentLength requested (decimatorOf factors) % f = 0) ∧
    segmentPlanner factors requested =
      .ok (adjustSegmentLength requested (decimatorOf factors)) := by
  have hDpos : 0 < decimatorOf factors := by
    rw [decimatorOf_eq_foldl_lcm]
    exact foldl_lcm_pos 1 factors (by omega) hpos
  have hdvdD : ∀ f ∈ factors, f ∣ decimatorOf factors := by
    intro f hf
    rw [decimatorOf_eq_foldl_lcm]
    exact mem_dvd_foldl_lcm 1 f factors hf
  refine ⟨hdvdD, ?_, adjust_dvd requested _ hDpos, adjust_ge requested _ hDpos,
    fun m hm hrm => adjust_min requested _ m hDpos hm hrm, ?_, ?_⟩
  · intro m hm
    rw [decimatorOf_eq_foldl_lcm]
    exact foldl_lcm_dvd 1 m factors (one_dvd m) hm
  · intro f hf
    have h1 : f ∣ adjustSegmentLength requested (decimatorOf factors) :=
      dvd_trans (hdvdD f hf) (adjust_dvd requested _ hDpos)
    exact Nat.mod_eq_zero_of_dvd h1
  · unfold segmentPlanner
    rw [if_neg (by omega)]

/-- Witness for C1 at the spec's own scenario: factors 3 and 5, requested
1000, giving decimator 15 and actual length 1005. -/
theorem segment_planner_correct_witness :
    (([3, 5] : List Nat) ≠ [] ∧ ∀ f ∈ ([3, 5] : List Nat), 1 ≤ f) ∧
    decimatorOf [3, 5] = 15 ∧
    adjustSegmentLength 1000 (decimatorOf [3, 5]) = 1005 ∧
    ((∀ f ∈ ([3, 5] : List Nat), f ∣ decimatorOf [3, 5]) ∧
      (∀ m : Nat, (∀ f ∈ ([3, 5] : List Nat), f ∣ m) → decimatorOf [3, 5] ∣ m) ∧
      decimatorOf [3, 5] ∣ adjustSegmentLength 1000 (decimatorOf [3, 5]) ∧
      1000 ≤ adjustSegmentLength 1000 (decimatorOf [3, 5]) ∧
      (∀ m : Nat, decimatorOf [3, 5] ∣ m → 1000 ≤ m →
        adjustSegmentLength 1000 (decimatorOf [3, 5]) ≤ m) ∧
      (∀ f ∈ ([3, 5] : List Nat),
        adjustSegmentLength 1000 (decimatorOf [3, 5]) % f = 0) ∧
      segmentPlanner [3, 5] 1000 =
        .ok (adjustSegmentLength 1000 (decimatorOf [3, 5]))) :=
  ⟨⟨by decide, by decide⟩, by decide, by decide,
    segment_planner_correct [3, 5] 1000 (by decide) (by decide)⟩

/-- C8 counterexample: with a zero software-decimation factor the planner
(and hence the Reader setup) fails with `ZeroDivisionError`, not with the
spec's `ConfigError`, which the source never defines. -/
theorem zero_decim_counterexample :
    (readerSetup [0] 10).exception = some PyError.zeroDivisionError ∧
    (readerSetup [0] 10).exception ≠ some PyError.configError := by
  decide

/-- C8 amended: if any per-channel software-decimation factor is 0, the
planner accumulates a decimator of 0 and the `segment_length % decimator`
check raises `ZeroDivisionError` before the streaming socket is opened; the
factor is never coerced to 1 and no zero decimator is used. -/
theorem zero_decim_fails_before_socket (factors : List Nat) (requested : Nat)
    (h0 : 0 ∈ factors) :
    decimatorOf factors = 0 ∧
    (readerSetup factors requested).exception = some PyError.zeroDivisionError ∧
    (readerSetup factors requested).socketOpened = false := by
  have hD := decimatorOf_eq_zero_of_mem factors h0
  refine ⟨hD, ?_, ?_⟩ <;>
    simp [readerSetup, segmentPlanner, hD]

/-- Witness for C8's amended theorem at factors `[4, 0, 2]`, request 123. -/
theorem zero_decim_fails_before_socket_witness :
    (0 ∈ ([4, 0, 2] : List Nat)) ∧
    (decimatorOf [4, 0, 2] = 0 ∧
      (readerSetup [4, 0, 2] 123).exception = some PyError.zeroDivisionError ∧
      (readerSetup [4, 0, 2] 123).socketOpened = false) :=
  ⟨by decide, zero_decim_fails_before_socket [4, 0, 2] 123 (by decide)⟩

/-- C9: converting UTC to TAI and back is the identity (the two conversions
use the same fixed leap-second offset), and the scratchpad timestamp decode
equals `spad1 * 10^9 + (spad2 mod 2^28) * ns_per_tick` — the vernier word is
masked to its low 28 bits before multiplying. -/
theorem timestamp_codec_correct :
    (∀ x : Int, tai_to_utc (utc_to_tai x) = x) ∧
    (∀ spad1 spad2 ns_per_tick : Nat,
      parse_spad_tai_timestamp spad1 spad2 ns_per_tick =
        spad1 * 10 ^ 9 + (spad2 % 2 ^ 28) * ns_per_tick) := by
  constructor
  · intro x
    unfold tai_to_utc utc_to_tai TAI_TO_UTC_OFFSET_NANOSECONDS SECONDS_TO_NANOSECONDS
    omega
  · intro spad1 spad2 ns_per_tick
    unfold parse_spad_tai_timestamp
    have h : (268435455 : Nat) = 2 ^ 28 - 1 := by norm_num
    rw [h, Nat.and_pow_two_sub_one_eq_mod]
    norm_num

/-- C5 counterexample: when both threads recorded an exception, the join
logic stores the Writer's exception on the Reader, not the Reader's own. -/
theorem join_precedence_counterexample :
    joinWriter (some PyError.socketError) (some PyError.nameError) =
      some PyError.nameError ∧
    joinWriter (some PyError.socketError) (some PyError.nameError) ≠
      some PyError.socketError := by
  decide

/-- C5 amended: if both the Reader and the Writer recorded an exception, the
exception ultimately stored on the Reader is the Writer's — the
`if hasattr(self.writer, "exception")` assignment unconditionally overwrites
the Reader's own. -/
theorem join_stores_writer_exception (r w : PyError) :
    joinWriter (some r) (some w) = some w := rfl

/-- C7: in the `src/acq2106.py` revision a socket timeout abandons the buffer
(the empty queue stays without it) while the `src/ACQ2106.py` revision
returns it; in both, the segment index is unchanged, nothing is pushed to
the full queue, and the run flag stays set so the same segment is retried.
Evaluated at the failing input: one recycled buffer (id 7) on the empty
queue and a timeout on the first read. -/
theorem timeout_buffer_handling :
    (readerLoopOld 5 [.timeout] { initialReaderState with emptyQ := [7] }).emptyQ
      = [] ∧
    (readerLoopOld 5 [.timeout] { initialReaderState with emptyQ := [7] }).fullQ
      = [] ∧
    (readerLoopOld 5 [.timeout] { initialReaderState with emptyQ := [7] }).segIdx
      = 0 ∧
    (readerLoopOld 5 [.timeout] { initialReaderState with emptyQ := [7] }).running
      = true ∧
    (readerLoop 5 [.timeout] { initialReaderState with emptyQ := [7] }).emptyQ
      = [7] ∧
    (readerLoop 5 [.timeout] { initialReaderState with emptyQ := [7] }).fullQ
      = [] ∧
    (readerLoop 5 [.timeout] { initialReaderState with emptyQ := [7] }).segIdx
      = 0 ∧
    (readerLoop 5 [.timeout] { initialReaderState with emptyQ := [7] }).running
      = true := by
  decide

/-- C4 counterexample: the scratchpad axis computed by the Writer omits the
time origin, so with `time_at_0 = 1` it differs from the claimed "same
formula with d = 1" axis (begin 0 versus 1). -/
theorem spad_axis_counterexample :
    spadSegmentAxis 0 10 (delta_time 1 1) ≠ claimedAxis 0 10 1 1 1 1 := by
  intro h
  have h0 : (spadSegmentAxis 0 10 (delta_time 1 1)).tBegin = 0 := by
    norm_num [spadSegmentAxis, delta_time]
  have h1 : (claimedAxis 0 10 1 1 1 1).tBegin = 1 := by
    norm_num [claimedAxis]
  rw [h, h1] at h0
  exact one_ne_zero h0

/-- C4 amended: each enabled channel's persisted segment axis equals the
claimed formula — begin `k × (L/d) × (1/frequency × hardware_decimation × d)
+ time_at_0`, end `begin + (L/d - 1) ×` spacing — while the scratchpad
columns use the run-wide undecimated axis given by the same formula with
`d = 1` and a zero time-origin offset (the code's scratchpad axis has no
`time_at_0` term). -/
theorem segment_time_axis (k L d : Nat)
    (frequency hardware_decimation time_at_0 : ℚ) :
    inputSegmentAxis k L d (delta_time frequency hardware_decimation) time_at_0
      = claimedAxis k L d frequency hardware_decimation time_at_0 ∧
    spadSegmentAxis k L (delta_time frequency hardware_decimation)
      = claimedAxis k L 1 frequency hardware_decimation 0 := by
  have hext : ∀ a b : SegmentAxis, a.tBegin = b.tBegin → a.tEnd = b.tEnd → a = b := by
    intro a b h1 h2
    cases a
    cases b
    simp_all
  constructor <;> apply hext <;>
    simp only [inputSegmentAxis, spadSegmentAxis, claimedAxis, delta_time] <;>
    push_cast <;> ring

/-- C10: in the `src/ACQ2106.py` revision the scratchpad filtering loop of
`StreamWriter.run` evaluates the name `i` (its loop variable is
`spad_index`), which is unbound there; with `_MAX_SPAD > 0` the Writer
raises `NameError` during setup, records it as its thread-local exception,
and never persists a segment. -/
theorem writer_name_error (maxSpad : Nat) (buffers : List (Option Nat))
    (h : 0 < maxSpad) :
    "i" ∉ writerLocalsBeforeSpadLoop ∧
    (writerRunACQ2106 maxSpad buffers).exception = some PyError.nameError ∧
    (writerRunACQ2106 maxSpad buffers).segmentsPersisted = 0 := by
  have hni : lookupLocal writerLocalsBeforeSpadLoop "i" = .error .nameError := by
    rfl
  cases maxSpad with
  | zero => omega
  | succ n =>
      refine ⟨by decide, ?_, ?_⟩ <;>
        simp [writerRunACQ2106, writerSpadLoop, hni]

/-- Witness for C10 at `_MAX_SPAD = 8` with one real buffer queued before
the sentinel. -/
theorem writer_name_error_witness :
    0 < 8 ∧
    ("i" ∉ writerLocalsBeforeSpadLoop ∧
      (writerRunACQ2106 8 [some 0, none]).exception = some PyError.nameError ∧
      (writerRunACQ2106 8 [some 0, none]).segmentsPersisted = 0) :=
  ⟨by decide, writer_name_error 8 [some 0, none] (by decide)⟩

theorem acquireBuffer_preserves (s : ReaderState) :
    (acquireBuffer s).2.fullQ = s.fullQ ∧ (acquireBuffer s).2.segIdx = s.segIdx ∧
    (acquireBuffer s).2.running = s.running ∧
    (acquireBuffer s).2.exception = s.exception := by
  rcases hs : s.emptyQ with _ | ⟨b, rest⟩ <;> simp [acquireBuffer, hs]

theorem readerLoop_hard_error (segment_count k : Nat) (s : ReaderState)
    (hrun : s.running = true) (hseg : s.segIdx + k < segment_count) :
    (readerLoop segment_count
        (List.replicate k .success ++ [.hardError]) s).exception
      = some PyError.socketError ∧
    ((readerLoop segment_count
        (List.replicate k .success ++ [.hardError]) s).fullQ.filter
          (fun b => b.isNone)).length
      = (s.fullQ.filter (fun b => b.isNone)).length + 1 ∧
    (readerLoop segment_count
        (List.replicate k .success ++ [.hardError]) s).running = true := by
  induction k generalizing s with
  | zero =>
      obtain ⟨hf, hsi, hr, he⟩ := acquireBuffer_preserves s
      have hcond : s.running = true ∧ s.segIdx < segment_count := ⟨hrun, by omega⟩
      simp only [List.replicate, List.nil_append]
      unfold readerLoop
      rw [if_pos hcond]
      refine ⟨rfl, ?_, ?_⟩
      · simp [hf, List.filter_append]
      · simp [hr, hrun]
  | succ n ih =>
      obtain ⟨hf, hsi, hr, he⟩ := acquireBuffer_preserves s
      have hcond : s.running = true ∧ s.segIdx < segment_count := ⟨hrun, by omega⟩
      simp only [List.replicate_succ, List.cons_append]
      unfold readerLoop
      rw [if_pos hcond]
      obtain ⟨h1, h2, h3⟩ := ih
        { (acquireBuffer s).2 with
            fullQ := (acquireBuffer s).2.fullQ ++ [some (acquireBuffer s).1],
            segIdx := (acquireBuffer s).2.segIdx + 1 }
        (by simp [hr, hrun]) (by simp only []; omega)
      refine ⟨h1, ?_, h3⟩
      rw [h2]
      simp [hf, List.filter_append]

/-- C6 counterexample: with a hard socket error on the very first read, the
sentinel is pushed twice over the run — once by the `except socket.error`
handler and once by the post-loop cleanup — not exactly once as claimed.
The run flag still ends cleared and the socket error is stored. -/
theorem fatal_error_sentinel_counterexample :
    sentinelCount (readerRun 1 [.hardError] none initialReaderState) = 2 ∧
    sentinelCount (readerRun 1 [.hardError] none initialReaderState) ≠ 1 ∧
    (readerRun 1 [.hardError] none initialReaderState).running = false ∧
    (readerRun 1 [.hardError] none initialReaderState).exception
      = some PyError.socketError := by
  decide

/-- C6 amended: when a hard (non-timeout) socket error occurs during a
segment read (after any number of successful segments), the Reader pushes
the end-of-stream sentinel exactly twice over the whole run — once in the
error handler and once in the epilogue — the run flag ends cleared, and the
socket error is stored on the Reader and retrievable after join (the Writer
having recorded no exception of its own). -/
theorem fatal_error_cleanup (segment_count k : Nat) (h : k < segment_count) :
    sentinelCount (readerRun segment_count
      (List.replicate k .success ++ [.hardError]) none initialReaderState) = 2 ∧
    (readerRun segment_count
      (List.replicate k .success ++ [.hardError]) none initialReaderState).running
      = false ∧
    (readerRun segment_count
      (List.replicate k .success ++ [.hardError]) none initialReaderState).exception
      = some PyError.socketError := by
  obtain ⟨h1, h2, h3⟩ := readerLoop_hard_error segment_count k initialReaderState
    rfl (by simp only [initialReaderState]; omega)
  unfold readerRun readerEpilogue sentinelCount joinWriter
  refine ⟨?_, rfl, ?_⟩
  · simp only [List.filter_append, List.length_append, h2]
    simp [initialReaderState]
  · simp [h1]

/-- Witness for C6's amended theorem: one successful segment, then a hard
error, with a configured segment count of 3. -/
theorem fatal_error_cleanup_witness :
    1 < 3 ∧
    (sentinelCount (readerRun 3
        (List.replicate 1 .success ++ [.hardError]) none initialReaderState) = 2 ∧
      (readerRun 3
        (List.replicate 1 .success ++ [.hardError]) none initialReaderState).running
        = false ∧
      (readerRun 3
        (List.replicate 1 .success ++ [.hardError]) none initialReaderState).exception
        = some PyError.socketError) :=
  ⟨by decide, fatal_error_cleanup 3 1 (by decide)⟩


theorem toUnsigned32_lt (x : Int) : toUnsigned32 x < 4294967296 := by
  unfold toUnsigned32
  omega

theorem word_roundtrip (v s : Int) (hv1 : -8388608 ≤ v) (hv2 : v < 8388608)
    (hs1 : 0 ≤ s) (hs2 : s < 256) :
    asr8 (toSigned32 (toUnsigned32 (v * 256 + s))) = v := by
  unfold asr8 toSigned32 toUnsigned32
  split <;> omega

theorem bytesToWords32_encode_cons (w : Nat) (hw : w < 4294967296)
    (bs : List Nat) :
    bytesToWords32 (byteEncode32 w ++ bs) = w :: bytesToWords32 bs := by
  have h : bytesToWords32
      (w % 256 :: w / 256 % 256 :: w / 65536 % 256 :: w / 16777216 % 256 :: bs)
    = (w % 256 + 256 * (w / 256 % 256) + 65536 * (w / 65536 % 256)
        + 16777216 * (w / 16777216 % 256)) :: bytesToWords32 bs := rfl
  show bytesToWords32
      (w % 256 :: w / 256 % 256 :: w / 65536 % 256 :: w / 16777216 % 256 :: bs)
    = w :: bytesToWords32 bs
  rw [h]
  congr 1
  omega

theorem bytesToWords32_flatten_append (ws : List Nat) (bs : List Nat)
    (h : ∀ w ∈ ws, w < 4294967296) :
    bytesToWords32 ((ws.map byteEncode32).flatten ++ bs) = ws ++ bytesToWords32 bs := by
  induction ws with
  | nil => rfl
  | cons w t ih =>
      simp only [List.map_cons, List.flatten_cons, List.append_assoc]
      rw [bytesToWords32_encode_cons w (h w (List.mem_cons_self w t)),
        ih (fun x hx => h x (List.mem_cons_of_mem w hx))]
      rfl

theorem mem_zipWith_toUnsigned_lt (a b : List Int) :
    ∀ w ∈ List.zipWith (fun v s => toUnsigned32 (v * 256 + s)) a b,
      w < 4294967296 := by
  induction a generalizing b with
  | nil => intro w hw; cases hw
  | cons x t ih =>
      cases b with
      | nil => intro w hw; cases hw
      | cons y u =>
          intro w hw
          rcases List.mem_cons.mp hw with h | h
          · subst h; exact toUnsigned32_lt _
          · exact ih u w h

theorem rowWords_lt (nchan nspad : Nat) (r : WireRow)
    (h : r.WellFormed nchan nspad) :
    ∀ w ∈ rowWords r, w < 4294967296 := by
  intro w hw
  rcases List.mem_append.mp hw with h' | h'
  · exact mem_zipWith_toUnsigned_lt r.samples r.statuses w h'
  · exact h.2.2.2.2.2 w h'

theorem rowWords_length (nchan nspad : Nat) (r : WireRow)
    (h : r.WellFormed nchan nspad) :
    (rowWords r).length = nchan + nspad := by
  obtain ⟨h1, h2, h3, _⟩ := h
  simp [rowWords, h1, h2, h3]

theorem zipWith_word_roundtrip (a b : List Int) (hlen : a.length = b.length)
    (ha : ∀ v ∈ a, -8388608 ≤ v ∧ v < 8388608)
    (hb : ∀ s ∈ b, 0 ≤ s ∧ s < 256) :
    List.zipWith (fun v s => asr8 (toSigned32 (toUnsigned32 (v * 256 + s)))) a b
      = a := by
  induction a generalizing b with
  | nil => rfl
  | cons x t ih =>
      cases b with
      | nil => simp at hlen
      | cons y u =>
          simp only [List.zipWith_cons_cons]
          have hx := ha x (List.mem_cons_self x t)
          have hy := hb y (List.mem_cons_self y u)
          rw [word_roundtrip x y hx.1 hx.2 hy.1 hy.2]
          congr 1
          exact ih u (by simpa using hlen)
            (fun v hv => ha v (List.mem_cons_of_mem x hv))
            (fun s hs => hb s (List.mem_cons_of_mem y hs))

theorem decode_rowWords (nchan nspad : Nat) (r : WireRow)
    (h : r.WellFormed nchan nspad) :
    ((((rowWords r).map toSigned32).map asr8).take nchan) = r.samples := by
  obtain ⟨h1, h2, h3, h4, h5, h6⟩ := h
  unfold rowWords
  rw [List.map_append, List.map_append]
  rw [List.map_zipWith, List.map_zipWith]
  have hzlen :
      (List.zipWith
        (fun v s => asr8 (toSigned32 (toUnsigned32 (v * 256 + s))))
        r.samples r.statuses).length = nchan := by
    simp [List.length_zipWith, h1, h2]
  rw [← hzlen, List.take_left]
  exact zipWith_word_roundtrip r.samples r.statuses (by rw [h1, h2]) h4 h5

theorem chunkRows_flatten (cols : Nat) (rows : List (List Int))
    (h : ∀ r ∈ rows, r.length = cols) :
    chunkRows cols rows.length rows.flatten = rows := by
  induction rows with
  | nil => rfl
  | cons r t ih =>
      simp only [List.length_cons, List.flatten_cons]
      unfold chunkRows
      have hr : r.length = cols := h r (List.mem_cons_self r t)
      rw [List.take_left' hr, List.drop_left' hr,
        ih (fun x hx => h x (List.mem_cons_of_mem r hx))]

theorem flatten_length_const {α : Type} (rows : List (List α)) (c : Nat)
    (h : ∀ r ∈ rows, r.length = c) : rows.flatten.length = rows.length * c := by
  induction rows with
  | nil => simp
  | cons r t ih =>
      simp only [List.flatten_cons, List.length_append, List.length_cons,
        h r (List.mem_cons_self r t),
        ih (fun x hx => h x (List.mem_cons_of_mem r hx))]
      ring

theorem bytesToWords32_encode4 (rows : List WireRow) (nchan nspad : Nat)
    (h : ∀ r ∈ rows, r.WellFormed nchan nspad) :
    bytesToWords32 (encode4 rows) = (rows.map rowWords).flatten := by
  induction rows with
  | nil => rfl
  | cons r t ih =>
      simp only [encode4, List.map_cons, List.flatten_cons]
      rw [show encodeRow4 r = ((rowWords r).map byteEncode32).flatten from rfl]
      rw [bytesToWords32_flatten_append (rowWords r) _
        (rowWords_lt nchan nspad r (h r (List.mem_cons_self r t)))]
      have ht : bytesToWords32 ((t.map encodeRow4).flatten)
          = (t.map rowWords).flatten :=
        ih (fun x hx => h x (List.mem_cons_of_mem r hx))
      rw [ht]

/-- C2: in 4-byte mode the decoder interprets the buffer as 32-bit signed
words, arithmetic-right-shifts every word by 8 bits (sign-preserving, also
for negative samples) before channel splitting, and column i of the result
holds channel i's samples in row order; hence encoding any well-formed
synthetic matrix (samples in the upper 24 bits, arbitrary status flags in
the low 8 bits, arbitrary scratchpad words) into the wire format and
decoding it reproduces the original channel values exactly. -/
theorem wire_roundtrip_4byte (rows : List WireRow) (L nchan nspad : Nat)
    (hL : rows.length = L) (hwf : ∀ r ∈ rows, r.WellFormed nchan nspad) :
    decode4 (encode4 rows) L nchan nspad = some (rows.map WireRow.samples) := by
  have hwords : bytesToWords32 (encode4 rows) = (rows.map rowWords).flatten :=
    bytesToWords32_encode4 rows nchan nspad hwf
  have hByteLen : (encode4 rows).length = (L * (nchan + nspad)) * 4 := by
    unfold encode4
    rw [flatten_length_const (rows.map encodeRow4) ((nchan + nspad) * 4) ?hc]
    · rw [List.length_map, hL]
      ring
    case hc =>
      intro x hx
      obtain ⟨r, hr, hxe⟩ := List.mem_map.mp hx
      subst hxe
      rw [show encodeRow4 r = ((rowWords r).map byteEncode32).flatten from rfl]
      rw [flatten_length_const ((rowWords r).map byteEncode32) 4 ?hc4]
      · rw [List.length_map, rowWords_length nchan nspad r (hwf r hr)]
      case hc4 =>
        intro y hy
        obtain ⟨w, hw, hye⟩ := List.mem_map.mp hy
        subst hye
        rfl
  have hmod : (encode4 rows).length % 4 = 0 := by
    rw [hByteLen]
    exact Nat.mul_mod_left _ 4
  have hdata : (((rows.map rowWords).flatten).map toSigned32).map asr8
      = (rows.map (fun r => ((rowWords r).map toSigned32).map asr8)).flatten := by
    rw [List.map_flatten, List.map_flatten, List.map_map, List.map_map]
    rfl
  have hrowlen2 :
      ∀ x ∈ rows.map (fun r => ((rowWords r).map toSigned32).map asr8),
        x.length = nchan + nspad := by
    intro x hx
    obtain ⟨r, hr, hxe⟩ := List.mem_map.mp hx
    subst hxe
    simp [rowWords_length nchan nspad r (hwf r hr)]
  have hflatlen :
      ((rows.map (fun r => ((rowWords r).map toSigned32).map asr8)).flatten).length
        = L * (nchan + nspad) := by
    rw [flatten_length_const _ (nchan + nspad) hrowlen2, List.length_map, hL]
  unfold decode4
  rw [if_pos hmod]
  rw [hwords, hdata]
  unfold reshapeMat
  rw [if_pos hflatlen]
  have hchunk :
      chunkRows (nchan + nspad) L
        ((rows.map (fun r => ((rowWords r).map toSigned32).map asr8)).flatten)
      = rows.map (fun r => ((rowWords r).map toSigned32).map asr8) := by
    have hc := chunkRows_flatten (nchan + nspad)
      (rows.map (fun r => ((rowWords r).map toSigned32).map asr8)) hrowlen2
    rw [List.length_map, hL] at hc
    exact hc
  rw [hchunk]
  show some ((rows.map (fun r => ((rowWords r).map toSigned32).map asr8)).map
      (fun row => row.take nchan)) = some (rows.map WireRow.samples)
  rw [List.map_map]
  congr 1
  apply List.map_congr_left
  intro r hr
  exact decode_rowWords nchan nspad r (hwf r hr)

/-- Witness for C2: a concrete 2-row, 2-channel, 1-scratchpad segment with
positive and negative samples (including the most negative 24-bit value). -/
theorem wire_roundtrip_4byte_witness :
    ([⟨[-5, 3], [7, 255], [4000000000]⟩,
      ⟨[2, -8388608], [0, 1], [123]⟩] : List WireRow).length = 2 ∧
    (∀ r ∈ ([⟨[-5, 3], [7, 255], [4000000000]⟩,
        ⟨[2, -8388608], [0, 1], [123]⟩] : List WireRow),
      r.WellFormed 2 1) ∧
    decode4 (encode4 [⟨[-5, 3], [7, 255], [4000000000]⟩,
        ⟨[2, -8388608], [0, 1], [123]⟩]) 2 2 1
      = some (([⟨[-5, 3], [7, 255], [4000000000]⟩,
          ⟨[2, -8388608], [0, 1], [123]⟩] : List WireRow).map WireRow.samples) :=
  ⟨rfl, by unfold WireRow.WellFormed; decide,
    wire_roundtrip_4byte _ 2 2 1 rfl (by unfold WireRow.WellFormed; decide)⟩

theorem bytesToWords32_length : ∀ bs : List Nat,
    (bytesToWords32 bs).length = bs.length / 4
  | [] => rfl
  | [_] => by simp [bytesToWords32]
  | [_, _] => by simp [bytesToWords32]
  | [_, _, _] => by simp [bytesToWords32]
  | b0 :: b1 :: b2 :: b3 :: rest => by
      have h : bytesToWords32 (b0 :: b1 :: b2 :: b3 :: rest)
          = (b0 + 256 * b1 + 65536 * b2 + 16777216 * b3) :: bytesToWords32 rest := rfl
      rw [h]
      simp only [List.length_cons]
      rw [bytesToWords32_length rest]
      omega

/-- C3: in 2-byte mode with nspad > 0 the scratchpad extraction never
produces the claimed matrix — the code reshapes the 32-bit word view of the
buffer with `samples_per_row = nchan + nspad * 2`, the row width of the
16-bit view, and the element counts can never match
(`L * (2*nchan + 4*nspad) / 4 < L * (nchan + 2*nspad)`), so `np.reshape`
raises `ValueError` for every buffer of the claimed length. -/
theorem spad_2byte_reshape_fails (L nchan nspad : Nat) (buf : List Nat)
    (hbuf : buf.length = L * (nchan * 2 + nspad * 4)) (hL : 0 < L)
    (hns : 0 < nspad) :
    decode2Spad buf L nchan nspad = none := by
  unfold decode2Spad
  by_cases h4 : buf.length % 4 = 0
  · rw [if_pos h4]
    have hlen : ((bytesToWords32 buf).map toSigned32).length = buf.length / 4 := by
      rw [List.length_map, bytesToWords32_length]
    have hne : ((bytesToWords32 buf).map toSigned32).length
        ≠ L * (nchan + nspad * 2) := by
      rw [hlen, hbuf]
      have e1 : L * (nchan * 2 + nspad * 4) = (L * (nchan + nspad * 2)) * 2 := by
        ring
      rw [e1]
      have hxpos : 0 < L * (nchan + nspad * 2) := by
        apply Nat.mul_pos hL
        omega
      omega
    unfold reshapeMat
    rw [if_neg hne]
    rfl
  · rw [if_neg h4]

/-- Witness for C3: segment_length 1, nchan 2, nspad 1, an 8-byte buffer of
the exact wire length. -/
theorem spad_2byte_reshape_fails_witness :
    (List.replicate 8 0).length = 1 * (2 * 2 + 1 * 4) ∧ 0 < 1 ∧ 0 < 1 ∧
    decode2Spad (List.replicate 8 0) 1 2 1 = none :=
  ⟨by decide, by decide, by decide,
    spad_2byte_reshape_fails 1 2 1 (List.replicate 8 0) (by decide) (by decide)
      (by decide)⟩
